import Mathlib

/-!
# Verification of the Demo-swissbit device-trust engine

A shallow embedding of the device-trust / step-up authentication logic of
the Demo-swissbit repository (`app.js`, `ishield.js`, `umfa.js`) together
with theorems settling the specification claims.

Modelling conventions:
* `localStorage` is modelled as an association list from keys to string
  values (`Storage`); `getItem` / `setItem` / `removeItem` mirror the Web
  Storage API.
* Browser/WebAuthn ceremonies, the Ideem SDK calls and the network are
  external collaborators; each operation takes an explicit oracle value
  describing the collaborator's outcome for that single call.
* Engine operations additionally return the list of collaborator calls
  they performed (`CallEvent`), in order, so call-order claims are
  statable.
-/

namespace Swissbit

/-- `localStorage`: an association list of keys to string values.
`setItem` keeps keys unique by removing any previous binding. -/
abbrev Storage := List (String × String)

/-- `localStorage.getItem(k)`: the stored value, or `none` when absent. -/
def getItem (s : Storage) (k : String) : Option String :=
  (s.find? (fun p => p.1 == k)).map (fun p => p.2)

/-- `localStorage.removeItem(k)`. -/
def removeItem (s : Storage) (k : String) : Storage :=
  s.filter (fun p => p.1 != k)

/-- `localStorage.setItem(k, v)` (overwrites any previous value). -/
def setItem (s : Storage) (k v : String) : Storage :=
  (k, v) :: removeItem s k

/-- ishield.js: the full `localStorage` key for the FIDO2 credential of a
user (source constant `'fido2_credential:' + user`). -/
def fido2Key (user : String) : String := "fido2_credential:" ++ user

/-- ishield.js: the full key for the suspension flag
(`'passkeys_suspended:' + user`). -/
def suspendedKey (user : String) : String := "passkeys_suspended:" ++ user

/-- ishield.js: the full key for the Passkeys+ toggle preference
(`'actions_passkeys_toggle:' + user`). -/
def toggleKey (user : String) : String := "actions_passkeys_toggle:" ++ user

/-- ishield.js `hasStoredCredential(user)`: true iff a FIDO2 credential is
stored for a non-empty user. -/
def hasStoredCredential (s : Storage) (user : String) : Bool :=
  if user = "" then false else (getItem s (fido2Key user)).isSome

/-- ishield.js `isSuspended(user)`: the stored value equals `'true'`. -/
def isSuspended (s : Storage) (user : String) : Bool :=
  if user = "" then false else getItem s (suspendedKey user) == some "true"

/-- ishield.js `setSuspended(user, value)`: stores `'true'` or removes the
key; a falsy (empty) user is a no-op. -/
def setSuspended (s : Storage) (user : String) (value : Bool) : Storage :=
  if user = "" then s
  else if value then setItem s (suspendedKey user) "true"
  else removeItem s (suspendedKey user)

/-- ishield.js `getPasskeysToggle(user)`: stored `'true'`/`'false'`,
defaulting to true when absent or when the user is empty. -/
def getPasskeysToggle (s : Storage) (user : String) : Bool :=
  if user = "" then true
  else match getItem s (toggleKey user) with
    | none => true
    | some v => v == "true"

/-- ishield.js `setPasskeysToggle(user, value)`: stores `String(value)`. -/
def setPasskeysToggle (s : Storage) (user : String) (value : Bool) : Storage :=
  if user = "" then s
  else setItem s (toggleKey user) (if value then "true" else "false")

end Swissbit

namespace Swissbit

/-! ## Collaborator oracles and call traces -/

/-- Outcome of `navigator.credentials.create` for a single invocation:
success carries the raw credential id bytes, failure the DOMException
name (`NotAllowedError`, `SecurityError`, `InvalidStateError`, ...). -/
inductive CreateOutcome
  | ok (rawId : List Nat)
  | err (name : String)
deriving DecidableEq, Repr

/-- Outcome of `navigator.credentials.get` for a single invocation.
On success the display data (clientDataHash / signatureHex) may or may
not be extractable; failure carries the DOMException name. -/
inductive GetOutcome
  | ok (display : Option (String × String))
  | err (name : String)
deriving DecidableEq, Repr

/-- The source position from which `umfa.js authenticate` is called:
the plain login path (app.js line 1110), the reactivation step of the
suspended login path (line 1089), or step-up auth (line 1146). -/
inductive AuthSite
  | plainLogin
  | reactivate
  | stepUp
deriving DecidableEq, Repr

/-- One collaborator call performed by an engine operation, in call order. -/
inductive CallEvent
  | credentialsGet
  | credentialsCreate
  | mfaInitialize (user : String)
  | mfaAuthenticate (site : AuthSite) (user : String) (usePasskeys : Bool)
  | mfaEnroll (user : String) (usePasskeys : Bool)
  | validateTokenCall (user : String)
deriving DecidableEq, Repr

/-- Is this event the plain (non-reactivation) `MfaClient.authenticate`
call of the login path? -/
def isPlainMfaAuth : CallEvent → Bool
  | .mfaAuthenticate .plainLogin _ _ => true
  | _ => false

/-- Is this event any `MfaClient.authenticate` call? -/
def isMfaAuth : CallEvent → Bool
  | .mfaAuthenticate _ _ _ => true
  | _ => false

/-! ## ishield.js WebAuthn operations -/

/-- Result shape of ishield.js `webauthnAuthenticate`:
`{ success, clientDataHash?, signatureHex?, error? }`.  The error is
modelled by its DOMException name and message. -/
structure WebauthnAuthResult where
  success : Bool
  display : Option (String × String) := none
  errorName : Option String := none
  errorMessage : Option String := none
deriving DecidableEq, Repr

/-- ishield.js `webauthnAuthenticate(user)` (lines 327-377).
Checks the user and the stored credential id before ever touching the
browser; only then invokes `navigator.credentials.get` (recorded as a
`credentialsGet` event). -/
def webauthnAuthenticate (s : Storage) (user : String) (ceremony : GetOutcome) :
    WebauthnAuthResult × List CallEvent :=
  if user = "" then
    ({ success := false, errorMessage := some "No user specified." }, [])
  else
    match getItem s (fido2Key user) with
    | none =>
        ({ success := false,
           errorMessage := some "No iShield key enrolled for this user." }, [])
    | some _ =>
        match ceremony with
        | .ok display => ({ success := true, display := display }, [.credentialsGet])
        | .err name =>
            ({ success := false, errorName := some name }, [.credentialsGet])

/-- ishield.js `webauthnEnroll(user)` (lines 239-291).
On ceremony success the credential id is stored (base64url-encoded) under
the user's FIDO2 key; on failure the original error is re-thrown and the
storage is untouched.  The stored JSON wrapper (`{id, createdAt}`) is
modelled by the encoded id itself, the only field ever read back.
`encodeId` stands for `bufferToBase64url`; it is passed in so this
definition can be given before the encoder (it is instantiated with the
real encoder below). -/
def webauthnEnrollWith (encodeId : List Nat → String) (s : Storage) (user : String)
    (ceremony : CreateOutcome) : Except String Unit × Storage × List CallEvent :=
  match ceremony with
  | .ok rawId =>
      (.ok (), setItem s (fido2Key user) (encodeId rawId), [.credentialsCreate])
  | .err name => (.error name, s, [.credentialsCreate])

end Swissbit

namespace Swissbit

/-! ## ishield.js base64url utilities

`bufferToBase64url` (ishield.js 159-164) builds a binary string from the
bytes, applies the browser's `btoa`, then replaces `+` with `-`, `/` with
`_`, and strips trailing `=`.  `base64urlToBuffer` (175-182) undoes the
replacements, re-pads with `=` to a multiple of 4, applies `atob` and
collects the character codes.  Byte buffers are modelled as `List Nat`
with entries below 256 (`Uint8Array` semantics); base64 text as
`List Char` wrapped into a `String`. -/

/-- Standard base64 of a byte list at the 6-bit level: values `0..63` are
data sextets, `64` marks a padding `=`.  Groups of three bytes produce
four sextets, exactly as `btoa` does. -/
def b64encode : List Nat → List Nat
  | [] => []
  | [b0] => [b0 / 4, b0 % 4 * 16, 64, 64]
  | [b0, b1] => [b0 / 4, b0 % 4 * 16 + b1 / 16, b1 % 16 * 4, 64]
  | b0 :: b1 :: b2 :: rest =>
      b0 / 4 :: (b0 % 4 * 16 + b1 / 16) :: (b1 % 16 * 4 + b2 / 64) :: b2 % 64 ::
        b64encode rest

/-- `atob` at the 6-bit level: four sextets decode to three bytes, with a
`64` (padding `=`) in third or fourth position ending the data early. -/
def b64decode : List Nat → List Nat
  | c0 :: c1 :: c2 :: c3 :: rest =>
      if c2 = 64 then [c0 * 4 + c1 / 16]
      else if c3 = 64 then [c0 * 4 + c1 / 16, c1 % 16 * 16 + c2 / 4]
      else (c0 * 4 + c1 / 16) :: (c1 % 16 * 16 + c2 / 4) :: (c2 % 4 * 64 + c3) ::
        b64decode rest
  | _ => []

/-- The base64 alphabet: sextet value to character, with `64` as `=`. -/
def sextetToChar (n : Nat) : Char :=
  if n < 26 then Char.ofNat (65 + n)
  else if n < 52 then Char.ofNat (97 + (n - 26))
  else if n < 62 then Char.ofNat (48 + (n - 52))
  else if n = 62 then '+'
  else if n = 63 then '/'
  else if n = 64 then '='
  else '?'

/-- Character back to sextet value (`=` and unknown characters to 64+). -/
def charToSextet (c : Char) : Nat :=
  if 'A' ≤ c ∧ c ≤ 'Z' then c.toNat - 65
  else if 'a' ≤ c ∧ c ≤ 'z' then c.toNat - 97 + 26
  else if '0' ≤ c ∧ c ≤ '9' then c.toNat - 48 + 52
  else if c = '+' then 62
  else if c = '/' then 63
  else 64

/-- The encoder's replacement step, per character: `+` becomes `-` and
`/` becomes `_`. -/
def urlFromStd (c : Char) : Char :=
  if c = '+' then '-' else if c = '/' then '_' else c

/-- The decoder's replacement step, per character: `-` becomes `+` and
`_` becomes `/`. -/
def stdFromUrl (c : Char) : Char :=
  if c = '-' then '+' else if c = '_' then '/' else c

/-- The encoder's final step: drop every trailing `=`. -/
def stripTrailingEq : List Char → List Char
  | [] => []
  | c :: rest =>
      match stripTrailingEq rest with
      | [] => if c = '=' then [] else [c]
      | r => c :: r

/-- The same trailing-strip at the sextet level (drop trailing `64`s);
used to relate the two layers of the encoding in the round-trip proof. -/
def stripTrailing64 : List Nat → List Nat
  | [] => []
  | c :: rest =>
      match stripTrailing64 rest with
      | [] => if c = 64 then [] else [c]
      | r => c :: r

/-- ishield.js `bufferToBase64url(buffer)`: bytes to `btoa` output, then
url-safe replacements, then trailing `=` stripped. -/
def bufferToBase64url (buffer : List Nat) : String :=
  String.mk (stripTrailingEq (((b64encode buffer).map sextetToChar).map urlFromStd))

/-- ishield.js `base64urlToBuffer(base64url)`: reverse replacements, pad
with `'='.repeat((4 - length % 4) % 4)`, then `atob` to bytes. -/
def base64urlToBuffer (s : String) : List Nat :=
  let base64 := s.data.map stdFromUrl
  let padded := base64 ++ List.replicate ((4 - base64.length % 4) % 4) '='
  b64decode (padded.map charToSextet)

end Swissbit

namespace Swissbit

/-! ## umfa.js: MfaClient wrapper -/

/-- An `UMFAClient` instance: bound to one `consumer_id` for its lifetime.
`instanceId` is a model-level allocation counter distinguishing distinct
`new UMFAClient(...)` constructions. -/
structure UMFAClient where
  consumer_id : String
  instanceId : Nat
deriving DecidableEq, Repr

/-- umfa.js module state: the cached `umfaClient` (null when reset) plus
the model's next fresh instance id. -/
structure ClientState where
  client : Option UMFAClient
  nextId : Nat
deriving DecidableEq, Repr

/-- umfa.js `initializeZSMClient(user)` (lines 132-153), with the config
already loaded (the engine always awaits `configLoaded` first).  Throws on
an empty user; creates a fresh client when none is cached or when the
cached client's `consumer_id` differs; otherwise reuses the cached
instance unchanged. -/
def initializeZSMClient (cs : ClientState) (user : String) :
    Except String (UMFAClient × ClientState) :=
  if user = "" then .error "User identifier is empty."
  else
    match cs.client with
    | some c =>
        if c.consumer_id = user then .ok (c, cs)
        else
          let c2 : UMFAClient := ⟨user, cs.nextId⟩
          .ok (c2, ⟨some c2, cs.nextId + 1⟩)
    | none =>
        let c2 : UMFAClient := ⟨user, cs.nextId⟩
        .ok (c2, ⟨some c2, cs.nextId + 1⟩)

/-- umfa.js `resetClient()`: drops the cached client. -/
def resetClient (cs : ClientState) : ClientState := ⟨none, cs.nextId⟩

/-- Raw result of the SDK call `umfaClient.authenticate(user, p)`, as
shape-sniffed by umfa.js `authenticate`:
a thrown exception, `false` (not enrolled), an `Error` instance, a
null/empty object (MPC/crypto failure), or a credential object.
`challengeData` is the display pair extractable from the credential's
`response` field (absent when extraction fails). -/
inductive SdkAuthResult
  | throws (msg : String)
  | notEnrolled
  | sdkError (msg : String)
  | emptyResult
  | credResult (credential : String) (challengeData : Option (String × String))
deriving DecidableEq, Repr

/-- Result shape of umfa.js `authenticate`:
`{success: true, credential, challengeData?}` or `{success: false, error}`. -/
inductive UmfaAuthResult
  | success (credential : String) (challengeData : Option (String × String))
  | failure (error : Option String)
deriving DecidableEq, Repr

/-- Boolean `success` field of an `UmfaAuthResult`. -/
def UmfaAuthResult.ok : UmfaAuthResult → Bool
  | .success _ _ => true
  | .failure _ => false

/-- umfa.js `authenticate(user, usingPasskeysPlus)` (lines 269-315): maps
the raw SDK result to the structured outcome.  The returned flag records
whether `validateToken` was reached (it is called exactly on the success
path, on the credential object). -/
def umfaAuthenticate (sdk : SdkAuthResult) : UmfaAuthResult × Bool :=
  match sdk with
  | .throws msg => (.failure (some msg), false)
  | .notEnrolled => (.failure (some "Not enrolled"), false)
  | .sdkError msg => (.failure (some msg), false)
  | .emptyResult => (.failure (some "MPC/crypto failure"), false)
  | .credResult credential challengeData =>
      (.success credential challengeData, true)

/-- Raw result of the SDK call `umfaClient.enroll(user, p)` as seen by
umfa.js `enroll`: `false` (already enrolled), an `Error`, or a token. -/
inductive SdkEnrollResult
  | alreadyEnrolled
  | sdkError (msg : String)
  | okToken (token : String)
deriving DecidableEq, Repr

/-- Result of umfa.js `enroll` (lines 219-236): passes `false` and `Error`
through, validates and returns the token otherwise.  The flag records
whether `validateToken` was reached. -/
inductive UmfaEnrollResult
  | alreadyEnrolled
  | sdkError (msg : String)
  | okToken (token : String)
deriving DecidableEq, Repr

/-- umfa.js `enroll(user, usingPasskeysPlus)`. -/
def umfaEnroll (sdk : SdkEnrollResult) : UmfaEnrollResult × Bool :=
  match sdk with
  | .alreadyEnrolled => (.alreadyEnrolled, false)
  | .sdkError msg => (.sdkError msg, false)
  | .okToken t => (.okToken t, true)

/-- Outcome of the single `fetch` performed by `validateToken`: a network
rejection, or a response with an HTTP status whose body either parses as
JSON (possibly carrying a `token` field) or fails to parse. -/
inductive FetchOutcome
  | netError (msg : String)
  | response (status : Nat) (parseOk : Bool) (hasToken : Bool)
deriving DecidableEq, Repr

/-- `Response.ok`: HTTP status in the 2xx success range. -/
def responseOk (status : Nat) : Bool := 200 ≤ status && status ≤ 299

/-- umfa.js `validateToken(userId, token)` (lines 335-363): POSTs the
token and returns `response.ok`; any fetch rejection or JSON parse
failure is caught and yields `false`.  Totality of this definition over
every `FetchOutcome` reflects that the function never throws. -/
def validateToken (fetched : FetchOutcome) : Bool :=
  match fetched with
  | .netError _ => false
  | .response status parseOk _ => if parseOk then responseOk status else false

end Swissbit

namespace Swissbit

/-! ## app.js: the device-trust engine -/

/-- ishield.js `webauthnEnroll` instantiated with the real encoder. -/
def webauthnEnroll (s : Storage) (user : String) (ceremony : CreateOutcome) :
    Except String Unit × Storage × List CallEvent :=
  webauthnEnrollWith bufferToBase64url s user ceremony

/-- The engine state: `localStorage`, the in-memory session
(`STATE.loginID`), and the umfa.js module state. -/
structure AppState where
  store : Storage
  loginID : Option String
  clientState : ClientState
deriving DecidableEq, Repr

/-- Remote enrollment status as read from
`checkAllEnrollment`: `{hasZSMCred, zsmCredID, hasRemotePasskey}`
(app.js updateUI, lines 934-936). -/
structure RemoteStatus where
  hasZSMCred : Bool
  zsmCredID : Option String
  hasRemotePasskey : Bool
deriving DecidableEq, Repr

/-- updateUI's `hasZSM`: `status.hasZSMCred === true || !!status.zsmCredID`. -/
def hasZSM (r : RemoteStatus) : Bool := r.hasZSMCred || r.zsmCredID.isSome

/-- The spec's "fully trusted" predicate, exactly updateUI's
`fullyEnrolled = hasIShield && hasZSM && hasPasskey` (app.js line 956):
local physical-key credential stored AND remote MPC share AND remote
passkey. -/
def fullyTrusted (s : Storage) (user : String) (remote : RemoteStatus) : Bool :=
  hasStoredCredential s user && hasZSM remote && remote.hasRemotePasskey

/-- The external outcomes a single `login()` invocation may consume: the
WebAuthn `get` ceremony (suspended path only), the SDK authenticate
result, and the `login-use-passkeys` checkbox (plain path only). -/
structure LoginWorld where
  ceremony : GetOutcome
  sdk : SdkAuthResult
  usePasskeysCheckbox : Bool
deriving DecidableEq, Repr

/-- app.js `login()` (lines 1062-1132).

Suspended path: `webauthnAuthenticate` first; on its failure, return with
nothing changed.  On success, `initializeZSMClient` then
`authenticate(user, true)` (the reactivation MPC step); on its failure
only the client cache has changed; on success clear `suspended`, set the
passkeys toggle true, and open the session.

Plain path: `initializeZSMClient` then `authenticate(user, checkbox)`;
open the session on success. -/
def login (st : AppState) (user : String) (w : LoginWorld) :
    AppState × List CallEvent :=
  if user = "" then (st, [])
  else if isSuspended st.store user then
    let (ishieldResult, ev1) := webauthnAuthenticate st.store user w.ceremony
    if ishieldResult.success = false then (st, ev1)
    else
      match initializeZSMClient st.clientState user with
      | .error _ => (st, ev1)
      | .ok (_, cs2) =>
          let (reactivateResult, validated) := umfaAuthenticate w.sdk
          let ev2 := ev1 ++ [.mfaInitialize user,
            .mfaAuthenticate .reactivate user true] ++
            (if validated then [.validateTokenCall user] else [])
          match reactivateResult with
          | .failure _ => ({ st with clientState := cs2 }, ev2)
          | .success _ _ =>
              let store2 := setPasskeysToggle (setSuspended st.store user false) user true
              (⟨store2, some user, cs2⟩, ev2)
  else
    let usePasskeys := w.usePasskeysCheckbox
    match initializeZSMClient st.clientState user with
    | .error _ => (st, [])
    | .ok (_, cs2) =>
        let (authResult, validated) := umfaAuthenticate w.sdk
        let ev2 := [.mfaInitialize user,
          .mfaAuthenticate .plainLogin user usePasskeys] ++
          (if validated then [.validateTokenCall user] else [])
        match authResult with
        | .failure _ => ({ st with clientState := cs2 }, ev2)
        | .success _ _ => (⟨st.store, some user, cs2⟩, ev2)

/-- app.js `PROTECTED_ACTION_LABELS[actionKey] ?? 'Protected Action'`. -/
def protectedActionLabel (actionKey : String) : String :=
  if actionKey = "make-payment" then "Make Payment"
  else if actionKey = "transfer-money" then "Transfer Money"
  else if actionKey = "change-setting" then "Change Setting"
  else if actionKey = "add-beneficiary" then "Add Beneficiary"
  else "Protected Action"

/-- The per-action flash outcome of `handleProtectedAction`. -/
structure ActionOutcome where
  label : String
  authorized : Bool
deriving DecidableEq, Repr

/-- app.js `handleProtectedAction(actionKey)` (lines 1137-1157).
Without a session (`STATE.loginID` null) it fails immediately, calling no
collaborator.  With a session it performs one step-up
`authenticate(loginID, checkbox)` and reports the outcome; the engine
state is never changed. -/
def handleProtectedAction (st : AppState) (actionKey : String)
    (checkbox : Bool) (sdk : SdkAuthResult) :
    AppState × ActionOutcome × List CallEvent :=
  let actionLabel := protectedActionLabel actionKey
  match st.loginID with
  | none => (st, ⟨actionLabel, false⟩, [])
  | some uid =>
      let (authResult, validated) := umfaAuthenticate sdk
      let evs := [.mfaAuthenticate .stepUp uid checkbox] ++
        (if validated then [.validateTokenCall uid] else [])
      (st, ⟨actionLabel, authResult.ok⟩, evs)

/-- app.js `logOut()` (lines 1162-1168): `resetClient()` plus
`STATE.reset()` (session cleared). -/
def logOut (st : AppState) : AppState :=
  ⟨st.store, none, resetClient st.clientState⟩

/-- app.js `suspendDevice()` (lines 1185-1198).  Guards: non-empty user,
`hasStoredCredential`, not already suspended, and the confirmation popup
not cancelled; each failing guard returns with nothing changed.  Past the
guards it sets `suspended=true`, logs out, and the trailing `updateUI()`
re-creates the umfa client for the current user. -/
def suspendDevice (st : AppState) (user : String) (confirm : Bool) : AppState :=
  if user = "" then st
  else if hasStoredCredential st.store user = false then st
  else if isSuspended st.store user then st
  else if confirm = false then st
  else
    let st2 := logOut { st with store := setSuspended st.store user true }
    match initializeZSMClient st2.clientState user with
    | .error _ => st2
    | .ok (_, cs3) => { st2 with clientState := cs3 }

/-- The external outcomes a single `trustDevice()` invocation may
consume: the WebAuthn `create` ceremony, the confirmation popup, and the
SDK enroll result. -/
structure TrustWorld where
  ceremony : CreateOutcome
  confirm : Bool
  sdkEnroll : SdkEnrollResult
deriving DecidableEq, Repr

/-- app.js `trustDevice()` (lines 993-1057).  `webauthnEnroll` first; on
a ceremony error the flash is shown and nothing has changed.  Then the
stored-credential recheck, the confirmation popup, `initializeZSMClient`,
and `enroll(user, true)`; only on enroll success is the session opened. -/
def trustDevice (st : AppState) (user : String) (w : TrustWorld) :
    AppState × List CallEvent :=
  if user = "" then (st, [])
  else
    match webauthnEnroll st.store user w.ceremony with
    | (.error _, s2, ev1) => ({ st with store := s2 }, ev1)
    | (.ok _, s2, ev1) =>
        if hasStoredCredential s2 user = false then ({ st with store := s2 }, ev1)
        else if w.confirm = false then ({ st with store := s2 }, ev1)
        else
          match initializeZSMClient st.clientState user with
          | .error _ => ({ st with store := s2 }, ev1)
          | .ok (_, cs2) =>
              let (enrollResult, validated) := umfaEnroll w.sdkEnroll
              let ev2 := ev1 ++ [.mfaInitialize user, .mfaEnroll user true] ++
                (if validated then [.validateTokenCall user] else [])
              match enrollResult with
              | .okToken _ => (⟨s2, some user, cs2⟩, ev2)
              | _ => (⟨s2, st.loginID, cs2⟩, ev2)

end Swissbit

namespace Swissbit

/-! ## Storage lemmas -/

lemma find?_removeItem_ne (s : Storage) (k k' : String) (h : k' ≠ k) :
    (removeItem s k').find? (fun p => p.1 == k) = s.find? (fun p => p.1 == k) := by
  induction s with
  | nil => rfl
  | cons a t ih =>
      rcases eq_or_ne a.1 k' with ha | ha
      · have h1 : removeItem (a :: t) k' = removeItem t k' := by
          simp [removeItem, List.filter_cons, ha]
        have h2 : (a.1 == k) = false := by
          rw [ha]
          exact beq_eq_false_iff_ne.mpr h
        rw [h1, ih, List.find?_cons, h2]
      · have h1 : removeItem (a :: t) k' = a :: removeItem t k' := by
          simp [removeItem, List.filter_cons, ha]
        rw [h1, List.find?_cons, List.find?_cons, ih]

lemma find?_removeItem_self (s : Storage) (k : String) :
    (removeItem s k).find? (fun p => p.1 == k) = none := by
  induction s with
  | nil => rfl
  | cons a t ih =>
      rcases eq_or_ne a.1 k with ha | ha
      · have h1 : removeItem (a :: t) k = removeItem t k := by
          simp [removeItem, List.filter_cons, ha]
        rw [h1, ih]
      · have h1 : removeItem (a :: t) k = a :: removeItem t k := by
          simp [removeItem, List.filter_cons, ha]
        have h2 : (a.1 == k) = false := beq_eq_false_iff_ne.mpr ha
        rw [h1, List.find?_cons, h2, ih]

lemma getItem_setItem_self (s : Storage) (k v : String) :
    getItem (setItem s k v) k = some v := by
  simp [getItem, setItem, List.find?_cons]

lemma getItem_setItem_ne (s : Storage) (k k' v : String) (h : k' ≠ k) :
    getItem (setItem s k' v) k = getItem s k := by
  have h2 : (k' == k) = false := beq_eq_false_iff_ne.mpr h
  simp only [getItem, setItem, List.find?_cons, h2, find?_removeItem_ne s k k' h]

lemma getItem_removeItem_self (s : Storage) (k : String) :
    getItem (removeItem s k) k = none := by
  simp [getItem, find?_removeItem_self s k]

lemma getItem_removeItem_ne (s : Storage) (k k' : String) (h : k' ≠ k) :
    getItem (removeItem s k') k = getItem s k := by
  simp [getItem, find?_removeItem_ne s k k' h]

lemma suspendedKey_ne_toggleKey (u : String) : suspendedKey u ≠ toggleKey u := by
  intro h
  have h2 := congrArg String.length h
  have e0 : ("passkeys_suspended:" : String).length = 19 := rfl
  have e0' : ("actions_passkeys_toggle:" : String).length = 24 := rfl
  have e1 : (suspendedKey u).length = 19 + u.length := by
    simp [suspendedKey, String.length_append, e0]
  have e2 : (toggleKey u).length = 24 + u.length := by
    simp [toggleKey, String.length_append, e0']
  omega

end Swissbit

namespace Swissbit

/-! ## Claim theorems -/

/-- C8: `TokenValidator.validate` returns true iff the endpoint's
response status is in the success range (2xx); a network rejection or a
JSON parse failure yields false.  (`validateToken` is a total function of
the fetch outcome, reflecting that it never throws.) -/
theorem validateToken_true_iff_success_status (f : FetchOutcome) :
    validateToken f = true ↔
      ∃ status hasToken, f = .response status true hasToken ∧
        200 ≤ status ∧ status ≤ 299 := by
  cases f with
  | netError msg => simp [validateToken]
  | response status parseOk hasToken =>
      cases parseOk with
      | false => simp [validateToken]
      | true =>
          simp only [validateToken, if_true, responseOk]
          constructor
          · intro h
            rcases Bool.and_eq_true_iff.mp h with ⟨h1, h2⟩
            exact ⟨status, hasToken, rfl, by simpa using h1, by simpa using h2⟩
          · rintro ⟨s2, t2, heq, h1, h2⟩
            cases heq
            simp [h1, h2]

/-- C7: `initializeZSMClient` is idempotent per user: re-initializing
with the same user returns the cached instance and leaves the module
state unchanged, while initializing with a user different from the
cached client's binding constructs a fresh instance (a new allocation,
distinct from the cached one) bound to the new user. -/
theorem initializeZSMClient_per_user_binding (cs : ClientState) (user : String)
    (h : user ≠ "") :
    (∀ c cs2, initializeZSMClient cs user = .ok (c, cs2) →
       initializeZSMClient cs2 user = .ok (c, cs2) ∧ c.consumer_id = user) ∧
    (∀ c0, cs.client = some c0 → c0.consumer_id ≠ user →
       initializeZSMClient cs user =
         .ok (⟨user, cs.nextId⟩, ⟨some ⟨user, cs.nextId⟩, cs.nextId + 1⟩) ∧
       (c0.instanceId < cs.nextId → (⟨user, cs.nextId⟩ : UMFAClient) ≠ c0)) := by
  obtain ⟨cli, nid⟩ := cs
  constructor
  · intro c cs2 hinit
    cases cli with
    | none =>
        simp only [initializeZSMClient, if_neg h, Except.ok.injEq,
          Prod.mk.injEq] at hinit
        obtain ⟨rfl, rfl⟩ := hinit
        simp [initializeZSMClient, if_neg h]
    | some c0 =>
        by_cases he : c0.consumer_id = user
        · simp only [initializeZSMClient, if_neg h, he, if_true, Except.ok.injEq,
            Prod.mk.injEq] at hinit
          obtain ⟨rfl, rfl⟩ := hinit
          exact ⟨by simp [initializeZSMClient, if_neg h, he], he⟩
        · simp only [initializeZSMClient, if_neg h, he, if_false, Except.ok.injEq,
            Prod.mk.injEq] at hinit
          obtain ⟨rfl, rfl⟩ := hinit
          simp [initializeZSMClient, if_neg h]
  · intro c0 hc hne
    obtain rfl : cli = some c0 := hc
    refine ⟨?_, ?_⟩
    · simp [initializeZSMClient, if_neg h, hne]
    · intro hlt heq
      have h2 : nid = c0.instanceId := congrArg UMFAClient.instanceId heq
      dsimp only at hlt
      omega

/-- C7 witness: with a client cached for "bob", initializing for "alice"
allocates a fresh, distinct client bound to "alice". -/
theorem initializeZSMClient_per_user_binding_witness :
    initializeZSMClient ⟨some ⟨"bob", 0⟩, 1⟩ "alice" =
      .ok (⟨"alice", 1⟩, ⟨some ⟨"alice", 1⟩, 2⟩) ∧
    (⟨"alice", 1⟩ : UMFAClient) ≠ ⟨"bob", 0⟩ := by
  have h := (initializeZSMClient_per_user_binding ⟨some ⟨"bob", 0⟩, 1⟩ "alice"
    (by decide)).2 ⟨"bob", 0⟩ rfl (by decide)
  exact ⟨h.1, h.2 (by decide)⟩

/-- C9: when no credential is stored for a (non-empty) user,
`webauthnAuthenticate` returns the "no iShield key enrolled" failure and
performs no collaborator call: `navigator.credentials.get` (the browser
prompt) is never invoked, whatever the ceremony oracle would answer. -/
theorem webauthnAuthenticate_no_credential_no_prompt (s : Storage)
    (user : String) (ceremony : GetOutcome) (h1 : user ≠ "")
    (h2 : getItem s (fido2Key user) = none) :
    webauthnAuthenticate s user ceremony =
      ({ success := false,
         errorMessage := some "No iShield key enrolled for this user." }, []) := by
  unfold webauthnAuthenticate
  rw [if_neg h1, h2]

/-- C9 witness: a concrete store holding a credential for "bob" only;
authenticating "alice" fails without a browser prompt. -/
theorem webauthnAuthenticate_no_credential_no_prompt_witness :
    webauthnAuthenticate [(fido2Key "bob", "xyz")] "alice" (.ok none) =
      ({ success := false,
         errorMessage := some "No iShield key enrolled for this user." }, []) :=
  webauthnAuthenticate_no_credential_no_prompt [(fido2Key "bob", "xyz")] "alice"
    (.ok none) (by decide) (by decide)

/-- C4: `trustDevice` stores the physical-key credential only when the
WebAuthn create ceremony itself succeeded: on any ceremony failure (the
thrown error re-surfaces) the entire engine state, in particular the
stored flag, is exactly as before; and on ceremony success the
credential is stored. -/
theorem trustDevice_flag_only_on_ceremony_success :
    (∀ st user name w, w.ceremony = .err name →
       (trustDevice st user w).1 = st) ∧
    (∀ st user rawId w, user ≠ "" → w.ceremony = .ok rawId →
       hasStoredCredential ((trustDevice st user w).1).store user = true) := by
  constructor
  · intro st user name w hc
    unfold trustDevice webauthnEnroll webauthnEnrollWith
    rw [hc]
    by_cases hu : user = ""
    · rw [if_pos hu]
    · rw [if_neg hu]
  · intro st user rawId w hu hc
    have hstored : ∀ s2 : Storage,
        hasStoredCredential (setItem s2 (fido2Key user) (bufferToBase64url rawId))
          user = true := by
      intro s2
      simp [hasStoredCredential, hu, getItem_setItem_self]
    unfold trustDevice webauthnEnroll webauthnEnrollWith
    rw [if_neg hu, hc]
    simp only
    rw [if_neg (by simp [hstored st.store])]
    by_cases hcf : w.confirm = false
    · rw [if_pos hcf]
      exact hstored st.store
    · rw [if_neg hcf]
      cases hinit : initializeZSMClient st.clientState user with
      | error e => simpa using hstored st.store
      | ok pr =>
          obtain ⟨c, cs2⟩ := pr
          cases hres : umfaEnroll w.sdkEnroll with
          | mk r v =>
              cases r <;> simp [hres, hstored st.store]

/-- C4 witness: ceremony failure leaves a concrete state unchanged, and
ceremony success stores the credential for "alice". -/
theorem trustDevice_flag_only_on_ceremony_success_witness :
    (trustDevice ⟨[], none, ⟨none, 0⟩⟩ "alice"
        ⟨.err "NotAllowedError", true, .okToken "t"⟩).1 = ⟨[], none, ⟨none, 0⟩⟩ ∧
    hasStoredCredential ((trustDevice ⟨[], none, ⟨none, 0⟩⟩ "alice"
        ⟨.ok [1, 2, 3], true, .okToken "t"⟩).1).store "alice" = true :=
  ⟨trustDevice_flag_only_on_ceremony_success.1 ⟨[], none, ⟨none, 0⟩⟩ "alice"
      "NotAllowedError" ⟨.err "NotAllowedError", true, .okToken "t"⟩ rfl,
   trustDevice_flag_only_on_ceremony_success.2 ⟨[], none, ⟨none, 0⟩⟩ "alice"
      [1, 2, 3] ⟨.ok [1, 2, 3], true, .okToken "t"⟩ (by decide) rfl⟩

/-- C6: `handleProtectedAction` never changes the engine's state (the
store, session and client cache are returned untouched whatever the
step-up outcome), and with no active session it fails immediately with
no collaborator call at all. -/
theorem handleProtectedAction_state_and_guard (st : AppState)
    (actionKey : String) (checkbox : Bool) (sdk : SdkAuthResult) :
    (handleProtectedAction st actionKey checkbox sdk).1 = st ∧
    (st.loginID = none →
       handleProtectedAction st actionKey checkbox sdk =
         (st, ⟨protectedActionLabel actionKey, false⟩, [])) := by
  constructor
  · unfold handleProtectedAction
    cases st.loginID <;> simp
  · intro hnone
    unfold handleProtectedAction
    rw [hnone]

/-- C6 witness: with no session, a concrete `make-payment` step-up fails
immediately with an empty call trace. -/
theorem handleProtectedAction_state_and_guard_witness :
    handleProtectedAction ⟨[], none, ⟨none, 0⟩⟩ "make-payment" true
        (.credResult "c" none) =
      (⟨[], none, ⟨none, 0⟩⟩, ⟨"Make Payment", false⟩, []) := by
  have h := (handleProtectedAction_state_and_guard ⟨[], none, ⟨none, 0⟩⟩
    "make-payment" true (.credResult "c" none)).2 rfl
  rw [h]
  decide

/-! ### Helper lemmas about the login trace -/

lemma webauthnAuthenticate_events (s : Storage) (u : String) (c : GetOutcome) :
    (webauthnAuthenticate s u c).2 = [] ∨
    (webauthnAuthenticate s u c).2 = [CallEvent.credentialsGet] := by
  unfold webauthnAuthenticate
  by_cases hu : u = ""
  · rw [if_pos hu]; left; rfl
  · rw [if_neg hu]
    cases getItem s (fido2Key u) with
    | none => left; rfl
    | some _ => cases c <;> right <;> rfl

lemma webauthnAuthenticate_events_of_success (s : Storage) (u : String)
    (c : GetOutcome) (h : (webauthnAuthenticate s u c).1.success = true) :
    (webauthnAuthenticate s u c).2 = [CallEvent.credentialsGet] := by
  unfold webauthnAuthenticate at h ⊢
  by_cases hu : u = ""
  · rw [if_pos hu] at h
    exact Bool.noConfusion h
  · rw [if_neg hu] at h ⊢
    rcases hget : getItem s (fido2Key u) with _ | v
    · rw [hget] at h
      exact Bool.noConfusion h
    · rw [hget] at h
      cases c
      · rfl
      · exact Bool.noConfusion h

lemma initializeZSMClient_ok (cs : ClientState) (user : String)
    (hu : user ≠ "") :
    ∃ c cs2, initializeZSMClient cs user = .ok (c, cs2) := by
  obtain ⟨cli, nid⟩ := cs
  cases cli with
  | none =>
      refine ⟨⟨user, nid⟩, ⟨some ⟨user, nid⟩, nid + 1⟩, ?_⟩
      simp [initializeZSMClient, if_neg hu]
  | some c0 =>
      by_cases he : c0.consumer_id = user
      · refine ⟨c0, ⟨some c0, nid⟩, ?_⟩
        simp [initializeZSMClient, if_neg hu, he]
      · refine ⟨⟨user, nid⟩, ⟨some ⟨user, nid⟩, nid + 1⟩, ?_⟩
        simp [initializeZSMClient, if_neg hu, he]

/-- C1: while the suspended flag is set, `login` takes the reactivation
path only: no plain (non-reactivation) `MfaClient.authenticate` call ever
appears in its collaborator trace, whatever the collaborators answer. -/
theorem login_suspended_never_plain_authenticate (st : AppState)
    (user : String) (w : LoginWorld)
    (h : isSuspended st.store user = true) :
    ((login st user w).2.any isPlainMfaAuth) = false := by
  have hu : ¬ user = "" := by
    intro e; subst e; simp [isSuspended] at h
  have hev := webauthnAuthenticate_events st.store user w.ceremony
  unfold login
  simp only [if_neg hu, h, if_true]
  rcases hwa : webauthnAuthenticate st.store user w.ceremony with ⟨r, ev⟩
  rw [hwa] at hev
  dsimp only at hev
  have hevp : (ev.any isPlainMfaAuth) = false := by
    rcases hev with rfl | rfl <;> simp [isPlainMfaAuth]
  by_cases hr : r.success = false
  · simp only [if_pos hr]
    exact hevp
  · simp only [if_neg hr]
    obtain ⟨c, cs2, hinit⟩ := initializeZSMClient_ok st.clientState user hu
    rw [hinit]
    rcases humfa : umfaAuthenticate w.sdk with ⟨res, val⟩
    cases res <;> cases val <;>
      simp [List.any_append, hevp, isPlainMfaAuth]

/-- C1 witness: a suspended concrete state; the login trace contains no
plain `MfaClient.authenticate` call. -/
theorem login_suspended_never_plain_authenticate_witness :
    ((login ⟨[(suspendedKey "alice", "true"), (fido2Key "alice", "id")], none,
        ⟨none, 0⟩⟩ "alice" ⟨.ok none, .credResult "c" none, true⟩).2.any
      isPlainMfaAuth) = false :=
  login_suspended_never_plain_authenticate _ _ _ (by decide)

/-- C2: in the reactivation flow the physical-key ceremony comes first:
if the ceremony reports failure the MPC client is never called and the
engine state (suspended flag, session, client cache) is exactly as
before; and whenever the trace contains an `MfaClient.authenticate`
call, the trace starts with the `navigator.credentials.get` ceremony. -/
theorem login_reactivation_ceremony_first (st : AppState) (user : String)
    (w : LoginWorld) (h : isSuspended st.store user = true) :
    ((webauthnAuthenticate st.store user w.ceremony).1.success = false →
       (login st user w).1 = st ∧ ((login st user w).2.any isMfaAuth) = false) ∧
    (((login st user w).2.any isMfaAuth) = true →
       (login st user w).2.head? = some .credentialsGet) := by
  have hu : ¬ user = "" := by
    intro e; subst e; simp [isSuspended] at h
  have hev := webauthnAuthenticate_events st.store user w.ceremony
  constructor
  · intro hfail
    unfold login
    simp only [if_neg hu, h, if_true]
    rw [if_pos hfail]
    refine ⟨rfl, ?_⟩
    rcases hev with hev | hev <;> simp [hev, isMfaAuth]
  · intro hmfa
    by_cases hr : (webauthnAuthenticate st.store user w.ceremony).1.success = false
    · exfalso
      unfold login at hmfa
      simp only [if_neg hu, h, if_true] at hmfa
      rw [if_pos hr] at hmfa
      rcases hev with hev | hev <;> simp [hev, isMfaAuth] at hmfa
    · have hsucc : (webauthnAuthenticate st.store user w.ceremony).1.success = true := by
        cases hs : (webauthnAuthenticate st.store user w.ceremony).1.success
        · exact absurd hs hr
        · rfl
      have hev2 := webauthnAuthenticate_events_of_success st.store user w.ceremony hsucc
      unfold login
      simp only [if_neg hu, h, if_true]
      rw [if_neg hr]
      obtain ⟨c, cs2, hinit⟩ := initializeZSMClient_ok st.clientState user hu
      rw [hinit]
      dsimp only
      rcases humfa : umfaAuthenticate w.sdk with ⟨res, val⟩
      cases res <;> simp [hev2]

/-- C2 witness: with a suspended state whose ceremony fails, login leaves
the state unchanged and never calls the MPC client; and on the
ceremony-success run the trace begins with the ceremony call. -/
theorem login_reactivation_ceremony_first_witness :
    ((login ⟨[(suspendedKey "alice", "true"), (fido2Key "alice", "id")], none,
        ⟨none, 0⟩⟩ "alice" ⟨.err "NotAllowedError", .credResult "c" none,
        true⟩).1 =
      ⟨[(suspendedKey "alice", "true"), (fido2Key "alice", "id")], none,
        ⟨none, 0⟩⟩ ∧
     ((login ⟨[(suspendedKey "alice", "true"), (fido2Key "alice", "id")], none,
        ⟨none, 0⟩⟩ "alice" ⟨.err "NotAllowedError", .credResult "c" none,
        true⟩).2.any isMfaAuth) = false) ∧
    (login ⟨[(suspendedKey "alice", "true"), (fido2Key "alice", "id")], none,
        ⟨none, 0⟩⟩ "alice" ⟨.ok none, .credResult "c" none, true⟩).2.head? =
      some .credentialsGet := by
  constructor
  · exact (login_reactivation_ceremony_first _ _ _ (by decide)).1 (by decide)
  · exact (login_reactivation_ceremony_first _ _ _ (by decide)).2 (by decide)

/-- C5: when both reactivation steps succeed (ceremony success, then a
credential-bearing MPC authenticate), `login` clears the suspended flag,
sets the passkeys preference to true, and opens the session for the
user. -/
theorem login_reactivation_joint_success (st : AppState) (user : String)
    (disp : Option (String × String)) (cred : String)
    (cd : Option (String × String)) (cb : Bool)
    (h1 : isSuspended st.store user = true)
    (h2 : hasStoredCredential st.store user = true) :
    isSuspended (login st user ⟨.ok disp, .credResult cred cd, cb⟩).1.store
        user = false ∧
    getPasskeysToggle (login st user ⟨.ok disp, .credResult cred cd, cb⟩).1.store
        user = true ∧
    (login st user ⟨.ok disp, .credResult cred cd, cb⟩).1.loginID = some user := by
  have hu : ¬ user = "" := by
    intro e; subst e; simp [isSuspended] at h1
  obtain ⟨v, hv⟩ : ∃ v, getItem st.store (fido2Key user) = some v := by
    have h3 := h2
    unfold hasStoredCredential at h3
    rw [if_neg hu] at h3
    exact Option.isSome_iff_exists.mp h3
  have hwa : webauthnAuthenticate st.store user (.ok disp) =
      ({ success := true, display := disp }, [.credentialsGet]) := by
    unfold webauthnAuthenticate
    rw [if_neg hu, hv]
  unfold login
  simp only [if_neg hu, h1, if_true, hwa]
  dsimp only
  rw [if_neg (fun hh => Bool.noConfusion hh)]
  obtain ⟨c, cs2, hinit⟩ := initializeZSMClient_ok st.clientState user hu
  rw [hinit]
  dsimp only [umfaAuthenticate]
  refine ⟨?_, ?_, rfl⟩
  · simp only [setPasskeysToggle, setSuspended, if_neg hu, Bool.false_eq_true,
      if_false, isSuspended]
    rw [getItem_setItem_ne _ _ _ _ (Ne.symm (suspendedKey_ne_toggleKey user))]
    rw [getItem_removeItem_self]
    rfl
  · simp only [setPasskeysToggle, setSuspended, if_neg hu, Bool.false_eq_true,
      if_false, getPasskeysToggle]
    rw [getItem_setItem_self]
    rfl

/-- C5 witness: concrete suspended state with a stored credential; after
the jointly successful reactivation the flag is cleared, the toggle set,
and the session open. -/
theorem login_reactivation_joint_success_witness :
    isSuspended (login ⟨[(suspendedKey "alice", "true"),
        (fido2Key "alice", "id")], none, ⟨none, 0⟩⟩ "alice"
        ⟨.ok none, .credResult "c" none, true⟩).1.store "alice" = false ∧
    getPasskeysToggle (login ⟨[(suspendedKey "alice", "true"),
        (fido2Key "alice", "id")], none, ⟨none, 0⟩⟩ "alice"
        ⟨.ok none, .credResult "c" none, true⟩).1.store "alice" = true ∧
    (login ⟨[(suspendedKey "alice", "true"), (fido2Key "alice", "id")], none,
        ⟨none, 0⟩⟩ "alice"
        ⟨.ok none, .credResult "c" none, true⟩).1.loginID = some "alice" :=
  login_reactivation_joint_success _ "alice" none "c" none true
    (by decide) (by decide)

/-- C3 counterexample: a device with a stored physical key but no remote
MPC share is not fully trusted, yet `suspendDevice` (with the popup
confirmed) changes the stored state: the claim's guard, as stated, fails
on the code, which checks only the local credential and the suspension
flag. -/
theorem suspendDevice_untrusted_changes_state :
    fullyTrusted [(fido2Key "alice", "cred")] "alice"
        ⟨false, none, false⟩ = false ∧
    (suspendDevice ⟨[(fido2Key "alice", "cred")], none, ⟨none, 0⟩⟩
        "alice" true).store ≠ [(fido2Key "alice", "cred")] := by
  decide

/-- C3 (amended): `suspendDevice` is a no-op unless a physical-key
credential is stored locally for the user (remote enrollment is not
consulted), the device is not already suspended, and the confirmation
popup is accepted; when any of these fails, all state is unchanged. -/
theorem suspendDevice_noop_without_local_credential (st : AppState)
    (user : String) (confirm : Bool)
    (h : hasStoredCredential st.store user = false ∨
         isSuspended st.store user = true ∨ confirm = false) :
    suspendDevice st user confirm = st := by
  unfold suspendDevice
  by_cases hu : user = ""
  · rw [if_pos hu]
  · rw [if_neg hu]
    rcases h with h | h | h
    · rw [if_pos h]
    · by_cases hcred : hasStoredCredential st.store user = false
      · rw [if_pos hcred]
      · rw [if_neg hcred, if_pos h]
    · by_cases hcred : hasStoredCredential st.store user = false
      · rw [if_pos hcred]
      · rw [if_neg hcred]
        by_cases hsus : isSuspended st.store user = true
        · rw [if_pos hsus]
        · rw [if_neg hsus, if_pos h]

/-- C3 (amended) witness: with nothing stored for "alice", a confirmed
suspend leaves the concrete state untouched. -/
theorem suspendDevice_noop_without_local_credential_witness :
    suspendDevice ⟨[], some "alice", ⟨none, 0⟩⟩ "alice" true =
      ⟨[], some "alice", ⟨none, 0⟩⟩ :=
  suspendDevice_noop_without_local_credential _ _ _ (Or.inl (by decide))

end Swissbit

namespace Swissbit

/-! ## Base64url round-trip (C10) -/

lemma b64decode_b64encode (b : List Nat) (h : ∀ x ∈ b, x < 256) :
    b64decode (b64encode b) = b := by
  induction b using b64encode.induct with
  | case1 => rfl
  | case2 b0 =>
      have hb0 : b0 < 256 := h b0 (by simp)
      simp [b64encode, b64decode]
      omega
  | case3 b0 b1 =>
      have hb0 : b0 < 256 := h b0 (by simp)
      have hb1 : b1 < 256 := h b1 (by simp)
      have hc2 : ¬(b1 % 16 * 4 = 64) := by omega
      simp [b64encode, b64decode, hc2]
      constructor <;> omega
  | case4 b0 b1 b2 rest ih =>
      have hb0 : b0 < 256 := h b0 (by simp)
      have hb1 : b1 < 256 := h b1 (by simp)
      have hb2 : b2 < 256 := h b2 (by simp)
      have hrest : ∀ x ∈ rest, x < 256 := fun x hx => h x (by simp [hx])
      have hc2 : ¬(b1 % 16 * 4 + b2 / 64 = 64) := by omega
      have hc3 : ¬(b2 % 64 = 64) := by omega
      simp [b64encode, b64decode, hc2, hc3]
      exact ⟨by omega, by omega, by omega, ih hrest⟩

lemma b64encode_le (b : List Nat) (h : ∀ x ∈ b, x < 256) :
    ∀ y ∈ b64encode b, y ≤ 64 := by
  induction b using b64encode.induct with
  | case1 => simp [b64encode]
  | case2 b0 =>
      have hb0 : b0 < 256 := h b0 (by simp)
      simp only [b64encode]
      intro y hy
      simp at hy
      rcases hy with rfl | rfl | rfl | rfl <;> omega
  | case3 b0 b1 =>
      have hb0 : b0 < 256 := h b0 (by simp)
      have hb1 : b1 < 256 := h b1 (by simp)
      simp only [b64encode]
      intro y hy
      simp at hy
      rcases hy with rfl | rfl | rfl | rfl <;> omega
  | case4 b0 b1 b2 rest ih =>
      have hb0 : b0 < 256 := h b0 (by simp)
      have hb1 : b1 < 256 := h b1 (by simp)
      have hb2 : b2 < 256 := h b2 (by simp)
      have hrest : ∀ x ∈ rest, x < 256 := fun x hx => h x (by simp [hx])
      simp only [b64encode]
      intro y hy
      simp only [List.mem_cons] at hy
      rcases hy with rfl | rfl | rfl | rfl | hy
      · omega
      · omega
      · omega
      · omega
      · exact ih hrest y hy

lemma stripTrailing64_cons_ne (x : Nat) (L : List Nat) (h : x ≠ 64) :
    stripTrailing64 (x :: L) = x :: stripTrailing64 L := by
  cases hL : stripTrailing64 L with
  | nil =>
      simp only [stripTrailing64, hL]
      simp [h]
  | cons a t => simp only [stripTrailing64, hL]

lemma stripTrailing64_cons_of_ne_nil (x : Nat) (L : List Nat)
    (h : stripTrailing64 L ≠ []) :
    stripTrailing64 (x :: L) = x :: stripTrailing64 L := by
  cases hL : stripTrailing64 L with
  | nil => exact absurd hL h
  | cons a t => simp only [stripTrailing64, hL]

lemma stripTrailing64_encode_repad (b : List Nat) (h : ∀ x ∈ b, x < 256) :
    stripTrailing64 (b64encode b) ++
      List.replicate ((4 - (stripTrailing64 (b64encode b)).length % 4) % 4) 64 =
      b64encode b := by
  induction b using b64encode.induct with
  | case1 => rfl
  | case2 b0 =>
      have hb0 : b0 < 256 := h b0 (by simp)
      have h1 : b0 % 4 * 16 ≠ 64 := by omega
      have s1 : stripTrailing64 [b0 % 4 * 16, 64, 64] = [b0 % 4 * 16] := by
        have s0 : stripTrailing64 [(64 : Nat), 64] = [] := rfl
        simp only [stripTrailing64, s0]
        simp [h1]
      have e1 : stripTrailing64 [b0 / 4, b0 % 4 * 16, 64, 64] =
          [b0 / 4, b0 % 4 * 16] := by
        rw [stripTrailing64_cons_of_ne_nil _ _ (by rw [s1]; simp), s1]
      simp only [b64encode]
      rw [e1]
      rfl
  | case3 b0 b1 =>
      have hb1 : b1 < 256 := h b1 (by simp)
      have h1 : b1 % 16 * 4 ≠ 64 := by omega
      have s1 : stripTrailing64 [b1 % 16 * 4, 64] = [b1 % 16 * 4] := by
        have s0 : stripTrailing64 [(64 : Nat)] = [] := rfl
        simp only [stripTrailing64, s0]
        simp [h1]
      have s3 : stripTrailing64 [b0 % 4 * 16 + b1 / 16, b1 % 16 * 4, 64] =
          [b0 % 4 * 16 + b1 / 16, b1 % 16 * 4] := by
        rw [stripTrailing64_cons_of_ne_nil _ _ (by rw [s1]; simp), s1]
      have s4 : stripTrailing64 [b0 / 4, b0 % 4 * 16 + b1 / 16, b1 % 16 * 4, 64] =
          [b0 / 4, b0 % 4 * 16 + b1 / 16, b1 % 16 * 4] := by
        rw [stripTrailing64_cons_of_ne_nil _ _ (by rw [s3]; simp), s3]
      simp only [b64encode]
      rw [s4]
      rfl
  | case4 b0 b1 b2 rest ih =>
      have hb2 : b2 < 256 := h b2 (by simp)
      have hrest : ∀ x ∈ rest, x < 256 := fun x hx => h x (by simp [hx])
      have h3 : b2 % 64 ≠ 64 := by omega
      have t3 : stripTrailing64 (b2 % 64 :: b64encode rest) =
          b2 % 64 :: stripTrailing64 (b64encode rest) :=
        stripTrailing64_cons_ne _ _ h3
      have t2 : stripTrailing64 ((b1 % 16 * 4 + b2 / 64) :: b2 % 64 :: b64encode rest) =
          (b1 % 16 * 4 + b2 / 64) :: b2 % 64 :: stripTrailing64 (b64encode rest) := by
        rw [stripTrailing64_cons_of_ne_nil _ _ (by rw [t3]; simp), t3]
      have t1 : stripTrailing64 ((b0 % 4 * 16 + b1 / 16) ::
            (b1 % 16 * 4 + b2 / 64) :: b2 % 64 :: b64encode rest) =
          (b0 % 4 * 16 + b1 / 16) :: (b1 % 16 * 4 + b2 / 64) :: b2 % 64 ::
            stripTrailing64 (b64encode rest) := by
        rw [stripTrailing64_cons_of_ne_nil _ _ (by rw [t2]; simp), t2]
      have t0 : stripTrailing64 (b0 / 4 :: (b0 % 4 * 16 + b1 / 16) ::
            (b1 % 16 * 4 + b2 / 64) :: b2 % 64 :: b64encode rest) =
          b0 / 4 :: (b0 % 4 * 16 + b1 / 16) :: (b1 % 16 * 4 + b2 / 64) :: b2 % 64 ::
            stripTrailing64 (b64encode rest) := by
        rw [stripTrailing64_cons_of_ne_nil _ _ (by rw [t1]; simp), t1]
      simp only [b64encode]
      rw [t0]
      have hcount : (4 - (b0 / 4 :: (b0 % 4 * 16 + b1 / 16) ::
            (b1 % 16 * 4 + b2 / 64) :: b2 % 64 ::
            stripTrailing64 (b64encode rest)).length % 4) % 4 =
          (4 - (stripTrailing64 (b64encode rest)).length % 4) % 4 := by
        simp only [List.length_cons]
        omega
      rw [hcount]
      rw [List.cons_append, List.cons_append, List.cons_append, List.cons_append,
        ih hrest]

lemma roundchar : ∀ n < 65, charToSextet (stdFromUrl (urlFromStd (sextetToChar n))) = n := by
  decide

lemma sextet_eq_pad_iff : ∀ n < 65, (urlFromStd (sextetToChar n) = '=') ↔ n = 64 := by
  decide

lemma stripTrailingEq_map (L : List Nat) (h : ∀ x ∈ L, x ≤ 64) :
    stripTrailingEq (L.map (fun n => urlFromStd (sextetToChar n))) =
      (stripTrailing64 L).map (fun n => urlFromStd (sextetToChar n)) := by
  induction L with
  | nil => rfl
  | cons c rest ih =>
      have hc : c ≤ 64 := h c (by simp)
      have hrest : ∀ x ∈ rest, x ≤ 64 := fun x hx => h x (by simp [hx])
      have ih2 := ih hrest
      simp only [List.map_cons]
      cases hR : stripTrailing64 rest with
      | nil =>
          have e : stripTrailingEq (rest.map (fun n => urlFromStd (sextetToChar n))) = [] := by
            rw [ih2, hR]
            rfl
          simp only [stripTrailingEq, e]
          simp only [stripTrailing64, hR]
          by_cases hc64 : c = 64
          · subst hc64
            simp [show urlFromStd (sextetToChar 64) = '=' from rfl]
          · have hne : urlFromStd (sextetToChar c) ≠ '=' := by
              intro he
              exact hc64 ((sextet_eq_pad_iff c (by omega)).mp he)
            simp [hc64, hne]
      | cons a t =>
          have e : stripTrailingEq (rest.map (fun n => urlFromStd (sextetToChar n))) =
              (a :: t).map (fun n => urlFromStd (sextetToChar n)) := by
            rw [ih2, hR]
          simp only [stripTrailingEq, e]
          simp only [stripTrailing64, hR]
          simp [List.map_cons]

lemma mem_stripTrailing64 (L : List Nat) (x : Nat)
    (hx : x ∈ stripTrailing64 L) : x ∈ L := by
  induction L with
  | nil => simp [stripTrailing64] at hx
  | cons c rest ih =>
      cases hR : stripTrailing64 rest with
      | nil =>
          simp only [stripTrailing64, hR] at hx
          by_cases hc : c = 64
          · simp [hc] at hx
          · simp [hc] at hx
            subst hx
            simp
      | cons a t =>
          simp only [stripTrailing64, hR] at hx
          rcases List.mem_cons.mp hx with rfl | hx2
          · simp
          · exact List.mem_cons_of_mem _ (ih (hR ▸ hx2))

lemma map_id_of (l : List Nat) (g : Nat → Nat) (h : ∀ x ∈ l, g x = x) :
    l.map g = l := by
  induction l with
  | nil => rfl
  | cons a t ih => simp [h a (by simp), ih (fun x hx => h x (by simp [hx]))]

/-- C10: decoding the base64url encoding of any byte buffer recovers the
original bytes (`base64urlToBuffer (bufferToBase64url b) = b`), so stored
credential ids round-trip exactly between enrollment and
authentication. -/
theorem base64url_roundtrip (b : List Nat) (h : ∀ x ∈ b, x < 256) :
    base64urlToBuffer (bufferToBase64url b) = b := by
  have hle : ∀ y ∈ b64encode b, y ≤ 64 := b64encode_le b h
  have hmap1 : ((b64encode b).map sextetToChar).map urlFromStd =
      (b64encode b).map (fun n => urlFromStd (sextetToChar n)) := by
    rw [List.map_map]
    rfl
  have hstrip := stripTrailingEq_map (b64encode b) hle
  simp only [bufferToBase64url, base64urlToBuffer]
  rw [hmap1, hstrip]
  rw [List.map_map, List.map_append, List.map_map, List.map_replicate]
  have hid : (stripTrailing64 (b64encode b)).map
      (charToSextet ∘ stdFromUrl ∘ (fun n => urlFromStd (sextetToChar n))) =
      stripTrailing64 (b64encode b) := by
    apply map_id_of
    intro x hx
    have hx64 : x ≤ 64 := hle x (mem_stripTrailing64 _ _ hx)
    exact roundchar x (by omega)
  rw [hid]
  rw [List.length_map]
  rw [show charToSextet '=' = 64 from rfl]
  rw [stripTrailing64_encode_repad b h]
  exact b64decode_b64encode b h

/-- C10 witness: a concrete buffer (its length exercises the one-byte
padding tail) round-trips exactly. -/
theorem base64url_roundtrip_witness :
    base64urlToBuffer (bufferToBase64url [0, 255, 16, 130]) = [0, 255, 16, 130] :=
  base64url_roundtrip [0, 255, 16, 130] (by decide)

end Swissbit
